import Mathlib

/-!
Verification of the dptree continuation-passing dispatch engine.

The engine (src/handler/core.rs) represents a handler as a shared function
taking an input and a continuation and producing a `ControlFlow`:
`Break output` when the handler terminates the dispatch, `Continue leftover`
when it declines and hands the (unmodified) input onward. The combinators
`chain` and `branch`, the drivers `execute` and `dispatch`, and the
constructors `from_fn` and `entry` are embedded below as pure functions;
the asynchronous layer only sequences awaits and is semantically transparent,
so a handler is its input/continuation-to-outcome function.
-/

namespace Dptree

/-- Outcome of one handler invocation, mirroring `std::ops::ControlFlow`:
`Break output` means the dispatch terminated with an output, `Continue leftover`
means the handler declined and carries the leftover input back. -/
inductive ControlFlow (Output Input : Type) : Type where
  | Break (output : Output)
  | Continue (leftover : Input)
deriving DecidableEq, Repr

/-- A continuation representing the rest of a handler chain
(`Cont<'a, Input, Output>` in src/handler/core.rs). -/
def Cont (Input Output : Type) : Type := Input → ControlFlow Output Input

/-- A handler (`Handler<'a, Input, Output>` in src/handler/core.rs): a shared
function from an input and a continuation to an outcome. `Arc` sharing and
`BoxFuture` are semantically transparent, so the handler is the function. -/
def Handler (Input Output : Type) : Type :=
  Input → Cont Input Output → ControlFlow Output Input

/-- `from_fn` (src/handler/core.rs): wraps a function into a handler unchanged. -/
def from_fn {Input Output : Type}
    (f : Input → Cont Input Output → ControlFlow Output Input) :
    Handler Input Output := f

/-- `Handler::clone` (src/handler/core.rs): clones share the same underlying
`Arc`ed function, so a clone is the same handler. -/
def Handler.clone {Input Output : Type} (self : Handler Input Output) :
    Handler Input Output := self

/-- `Handler::execute` (src/handler/core.rs): runs the handler's function on
the container with the supplied continuation. -/
def Handler.execute {Input Output : Type} (self : Handler Input Output)
    (container : Input) (cont : Cont Input Output) : ControlFlow Output Input :=
  self container cont

/-- `Handler::dispatch` (src/handler/core.rs): clones the handler and executes
it with the trivial continuation that returns `Continue` on the leftover. -/
def Handler.dispatch {Input Output : Type} (self : Handler Input Output)
    (container : Input) : ControlFlow Output Input :=
  self.clone.execute container (fun event => ControlFlow.Continue event)

/-- `Handler::chain` (src/handler/core.rs): executes `self` with a continuation
that executes `next` with the outer continuation still pending beyond it. -/
def Handler.chain {Input Output : Type} (self next : Handler Input Output) :
    Handler Input Output :=
  from_fn (fun event cont =>
    self.execute event (fun event =>
      next.execute event (fun event => cont event)))

/-- `Handler::branch` (src/handler/core.rs): executes `self` with a continuation
that dispatches `next` as an independent sub-root; only if that sub-dispatch
declines does control fall through to the outer continuation. -/
def Handler.branch {Input Output : Type} (self next : Handler Input Output) :
    Handler Input Output :=
  from_fn (fun event cont =>
    self.execute event (fun event =>
      match next.dispatch event with
      | ControlFlow.Continue event => cont event
      | done => done))

/-- `entry` (src/handler/core.rs): the identity handler, which passes the input
to the supplied continuation unchanged. -/
def entry {Input Output : Type} : Handler Input Output :=
  from_fn (fun event cont => cont event)

/-- A handler terminates on `x` with output `o` when it returns `Break o`
without consulting its continuation: the result is `Break o` under every
continuation. -/
def Terminates {Input Output : Type} (h : Handler Input Output)
    (x : Input) (o : Output) : Prop :=
  ∀ k : Cont Input Output, h x k = ControlFlow.Break o

/-- A handler declines on `x` with leftover `l` when it hands `l` to its
continuation and returns that result unchanged, under every continuation. -/
def DeclinesTo {Input Output : Type} (h : Handler Input Output)
    (x l : Input) : Prop :=
  ∀ k : Cont Input Output, h x k = k l

/-- A handler that always declines, returning its input unchanged to the
continuation — the `Declined` invariant of the data model. -/
def DeclinesId {Input Output : Type} (h : Handler Input Output) : Prop :=
  ∀ (x : Input) (k : Cont Input Output), h x k = k x

/-- A filter-style handler used for concrete witnesses: passes the input to the
continuation when the predicate holds, otherwise declines with it unchanged. -/
def filterH {Output : Type} (pred : Nat → Bool) : Handler Nat Output :=
  from_fn (fun event cont =>
    if pred event then cont event else ControlFlow.Continue event)

/-- An always-terminating handler used for concrete witnesses. -/
def constH {Output : Type} (o : Output) : Handler Nat Output :=
  from_fn (fun _event _cont => ControlFlow.Break o)

/-- An always-declining handler used for concrete witnesses. -/
def passH {Output : Type} : Handler Nat Output :=
  from_fn (fun event cont => cont event)

/-- Modelled from the spec: the dependency container module
(`crate::container::TypeMapDi` implementing `DiContainer`, used by
src/handler/endpoint.rs) is not under src. It is a heterogeneous,
type-indexed store of shared values with at most one retrievable value per
type, latest insertion wins. Type identities and stored values are modelled
as `Nat`. -/
structure TypeMapDi where
  entries : List (Nat × Nat)
deriving DecidableEq, Repr

/-- Modelled from the spec: insertion is the only mutation of the container;
the latest insertion wins, so a new entry shadows earlier entries of the same
type. -/
def TypeMapDi.insert (self : TypeMapDi) (t v : Nat) : TypeMapDi :=
  ⟨(t, v) :: self.entries⟩

/-- Modelled from the spec: `get<T>` yields the shared value stored for the
type `T`, or nothing when `T` was never inserted, in which case resolution
fails fatally, naming the missing type. -/
def TypeMapDi.get (self : TypeMapDi) (t : Nat) : Option Nat :=
  (self.entries.find? (fun p => p.1 == t)).map (fun p => p.2)

/-- Result of a computation that can abort with a dependency-resolution
failure naming the missing type — the fatal failure raised by `get` inside
the resolver built by `impl_into_di` (src/handler/endpoint.rs). -/
inductive DiResult (A : Type) : Type where
  | ok (value : A)
  | missingDependency (typeId : Nat)
deriving DecidableEq, Repr

/-- Argument resolution of `impl_into_di` (src/handler/endpoint.rs): each
declared dependency type is looked up in the container in declaration order,
aborting at the first type that was never inserted. -/
def resolveArgs (deps : List Nat) (c : TypeMapDi) : DiResult (List Nat) :=
  match deps with
  | [] => DiResult.ok []
  | t :: rest =>
    match c.get t with
    | none => DiResult.missingDependency t
    | some v =>
      match resolveArgs rest c with
      | DiResult.ok vs => DiResult.ok (v :: vs)
      | DiResult.missingDependency u => DiResult.missingDependency u

/-- `IntoDiFn::into` (src/handler/endpoint.rs): builds the resolver that, at
call time, looks each declared dependency up in the container and invokes the
wrapped function on the resolved values. -/
def intoDiFn {Output : Type} (deps : List Nat) (g : List Nat → Output) :
    TypeMapDi → DiResult Output := fun c =>
  match resolveArgs deps c with
  | DiResult.ok vs => DiResult.ok (g vs)
  | DiResult.missingDependency u => DiResult.missingDependency u

/-- A continuation in the fallible setting, where invocation can abort with a
resolution failure. -/
def ContF (Input Output : Type) : Type :=
  Input → DiResult (ControlFlow Output Input)

/-- A handler in the fallible setting, where a dependency-resolution failure
propagates directly to the caller. -/
def HandlerF (Input Output : Type) : Type :=
  Input → ContF Input Output → DiResult (ControlFlow Output Input)

/-- `endpoint` (src/handler/endpoint.rs): ignores its continuation and maps
the result of the dependency-resolved function into `ControlFlow::Break`; a
resolution failure of the function propagates unchanged. -/
def endpointF {Input Output : Type} (func : Input → DiResult Output) :
    HandlerF Input Output :=
  fun x _cont =>
    match func x with
    | DiResult.ok res => DiResult.ok (ControlFlow.Break res)
    | DiResult.missingDependency u => DiResult.missingDependency u

/-- `Handler::dispatch` in the fallible setting: executes with the trivial
continuation that declines with the leftover. -/
def HandlerF.dispatch {Input Output : Type} (self : HandlerF Input Output)
    (container : Input) : DiResult (ControlFlow Output Input) :=
  self container (fun event => DiResult.ok (ControlFlow.Continue event))

/-- A side-effecting asynchronous computation, modelled as the list of side
effects it performs paired with its resulting value. -/
abbrev Eff (E A : Type) : Type := List E × A

/-- A continuation in the effectful setting of src/handler/inspect.rs. -/
def ContE (E Input Output : Type) : Type :=
  Input → Eff E (ControlFlow Output Input)

/-- The effectful handler function type underlying the described handlers of
src/handler/inspect.rs. -/
def HandlerE (E Input Output : Type) : Type :=
  Input → ContE E Input Output → Eff E (ControlFlow Output Input)

/-- A handler carrying a diagnostic description, as built by the inspect
adapters (src/handler/inspect.rs). -/
structure HandlerD (E Descr Input Output : Type) : Type where
  description : Descr
  run : HandlerE E Input Output

/-- Modelled from the spec: `from_fn_with_description` (not under src; used by
src/handler/inspect.rs) attaches a diagnostic label to the handler built from
the function; the label never affects the outcome. -/
def from_fn_with_description {E Descr Input Output : Type} (d : Descr)
    (f : HandlerE E Input Output) : HandlerD E Descr Input Output := ⟨d, f⟩

/-- `inspect_async_with_description` (src/handler/inspect.rs): awaits the
injected side-effecting function on the input, discards its unit result, and
then awaits the continuation on the unchanged input. The `Injectable.inject`
step of the missing `di` module is modelled from the spec as the resolved
side-effecting action `Input → Eff E Unit` of the wrapped function. -/
def inspect_async_with_description {E Descr Input Output : Type} (d : Descr)
    (f : Input → Eff E Unit) : HandlerD E Descr Input Output :=
  from_fn_with_description d (fun x cont =>
    let r := f x
    let r2 := cont x
    (r.1 ++ r2.1, r2.2))

end Dptree

namespace Dptree

/-- Claim C1: `a.branch b` invokes `a` with a continuation that independently
dispatches `b` on the leftover with the trivial continuation (the outer `cont`
is not visible while `b` runs); if that sub-dispatch terminates, the
continuation returns exactly that output, and if it declines with a leftover,
the outer `cont` receives that leftover. -/
theorem branch_spec {Input Output : Type} (a b : Handler Input Output)
    (x : Input) (cont : Cont Input Output) :
    (a.branch b).execute x cont
      = a.execute x (fun leftover =>
          match b.dispatch leftover with
          | ControlFlow.Continue l => cont l
          | done => done)
    ∧ (∀ leftover o, b.dispatch leftover = ControlFlow.Break o →
        (match b.dispatch leftover with
         | ControlFlow.Continue l => cont l
         | done => done) = ControlFlow.Break o)
    ∧ (∀ leftover l, b.dispatch leftover = ControlFlow.Continue l →
        (match b.dispatch leftover with
         | ControlFlow.Continue l2 => cont l2
         | done => done) = cont l) := by
  refine ⟨rfl, ?_, ?_⟩
  · intro leftover o h
    rw [h]
  · intro leftover l h
    rw [h]

/-- Witness for C1: the equations of `branch_spec` hold at a concrete filter
and endpoint, with both a terminating and a declining sub-dispatch. -/
theorem branch_spec_witness :
    (match (constH "A" : Handler Nat String).dispatch 7 with
     | ControlFlow.Continue l => ControlFlow.Continue l
     | done => done) = ControlFlow.Break "A"
    ∧ (match (passH : Handler Nat String).dispatch 7 with
       | ControlFlow.Continue l2 => ControlFlow.Continue l2
       | done => done) = ControlFlow.Continue 7 :=
  ⟨(branch_spec (filterH (fun n => n > 0)) (constH "A") 7
      (fun l => ControlFlow.Continue l)).2.1 7 "A" rfl,
   (branch_spec (filterH (fun n => n > 0)) (passH) 7
      (fun l => ControlFlow.Continue l)).2.2 7 7 rfl⟩

/-- Claim C2: `a.chain b` on `(x, cont)` equals `a` on `x` with the continuation
that runs `b` on the leftover with `cont`; if `a` terminates, the composed
handler terminates with `a`'s output independently of `b` and `cont`; if both
decline, `cont` receives the leftover. -/
theorem chain_spec {Input Output : Type} (a b : Handler Input Output)
    (x : Input) (cont : Cont Input Output) :
    (a.chain b).execute x cont
      = a.execute x (fun leftover => b.execute leftover cont)
    ∧ (∀ o, Terminates a x o →
        (a.chain b).execute x cont = ControlFlow.Break o
        ∧ ∀ (b' : Handler Input Output) (cont' : Cont Input Output),
            (a.chain b).execute x cont = (a.chain b').execute x cont')
    ∧ (∀ la lb, DeclinesTo a x la → DeclinesTo b la lb →
        (a.chain b).execute x cont = cont lb) := by
  refine ⟨rfl, ?_, ?_⟩
  · intro o ha
    constructor
    · exact ha _
    · intro b' cont'
      rw [show (a.chain b).execute x cont = a x _ from rfl,
          show (a.chain b').execute x cont' = a x _ from rfl, ha, ha]
  · intro la lb ha hb
    rw [show (a.chain b).execute x cont = a x _ from rfl, ha]
    exact hb _

/-- Witness for C2: at a terminating head the chain breaks with the head's
output regardless of the tail, and at two declining handlers the continuation
receives the leftover. -/
theorem chain_spec_witness :
    ((constH "A" : Handler Nat String).chain (constH "B")).execute 3
        (fun l => ControlFlow.Continue l) = ControlFlow.Break "A"
    ∧ ((passH : Handler Nat String).chain (passH)).execute 3
        (fun _l => ControlFlow.Break "C") = ControlFlow.Break "C" :=
  ⟨((chain_spec (constH "A") (constH "B") 3
      (fun l => ControlFlow.Continue l)).2.1 "A" (fun _k => rfl)).1,
   (chain_spec (passH) (passH) 3
      (fun _l => ControlFlow.Break "C")).2.2 3 3 (fun _k => rfl) (fun _k => rfl)⟩

/-- Claim C3: `chain` is associative: the two associations produce identical
outcomes on every input and continuation. -/
theorem chain_assoc {Input Output : Type} (a b c : Handler Input Output)
    (x : Input) (cont : Cont Input Output) :
    ((a.chain b).chain c).execute x cont
      = (a.chain (b.chain c)).execute x cont := rfl

/-- Claim C4: `entry` is the identity handler — it passes its input to the
supplied continuation unchanged — and is a two-sided unit of `chain`. -/
theorem entry_unit {Input Output : Type} (a : Handler Input Output)
    (x : Input) (cont : Cont Input Output) :
    (entry : Handler Input Output).execute x cont = cont x
    ∧ (a.chain entry).execute x cont = a.execute x cont
    ∧ (entry.chain a).execute x cont = a.execute x cont :=
  ⟨rfl, rfl, rfl⟩

/-- Claim C5: `branch` is left-biased: if `a` terminates on `x`, then
`a.branch b` dispatched on `x` yields exactly `a`'s output, and the outcome is
independent of `b`. -/
theorem branch_left_bias {Input Output : Type} (a b : Handler Input Output)
    (x : Input) (o : Output) (ha : Terminates a x o) :
    (a.branch b).dispatch x = ControlFlow.Break o
    ∧ ∀ b' : Handler Input Output,
        (a.branch b).dispatch x = (a.branch b').dispatch x := by
  constructor
  · exact ha _
  · intro b'
    rw [show (a.branch b).dispatch x = a x _ from rfl,
        show (a.branch b').dispatch x = a x _ from rfl, ha, ha]

/-- Witness for C5: a terminating head wins at a concrete input, and swapping
the branch does not change the outcome. -/
theorem branch_left_bias_witness :
    ((constH "A" : Handler Nat String).branch (constH "B")).dispatch 5
        = ControlFlow.Break "A"
    ∧ ((constH "A" : Handler Nat String).branch (constH "B")).dispatch 5
        = ((constH "A" : Handler Nat String).branch (passH)).dispatch 5 :=
  ⟨(branch_left_bias (constH "A") (constH "B") 5 "A" (fun _k => rfl)).1,
   (branch_left_bias (constH "A") (constH "B") 5 "A" (fun _k => rfl)).2 (passH)⟩

/-- Claim C6: branch isolation and left-to-right selection: if both sides of
`a.branch b` decline identically the dispatch declines with the original input
unchanged; `a.branch b |>.branch c` likewise returns the original input when
all three decline, and otherwise terminates with the output of the first of
`a`, `b`, `c` (left to right) that terminates. -/
theorem branch_isolation {Input Output : Type} (a b c : Handler Input Output)
    (x : Input) :
    (DeclinesId a → DeclinesId b →
      (a.branch b).dispatch x = ControlFlow.Continue x)
    ∧ (DeclinesId a → DeclinesId b → DeclinesId c →
      ((a.branch b).branch c).dispatch x = ControlFlow.Continue x)
    ∧ (∀ o, Terminates a x o →
      ((a.branch b).branch c).dispatch x = ControlFlow.Break o)
    ∧ (∀ o, DeclinesId a → b.dispatch x = ControlFlow.Break o →
      ((a.branch b).branch c).dispatch x = ControlFlow.Break o)
    ∧ (∀ o, DeclinesId a → DeclinesId b →
      c.dispatch x = ControlFlow.Break o →
      ((a.branch b).branch c).dispatch x = ControlFlow.Break o) := by
  have ed : ∀ (h : Handler Input Output), DeclinesId h →
      ∀ y, h.dispatch y = ControlFlow.Continue y := by
    intro h hd y
    exact hd y _
  refine ⟨?_, ?_, ?_, ?_, ?_⟩
  · intro ha hb
    rw [show (a.branch b).dispatch x = a x _ from rfl, ha, ed b hb]
  · intro ha hb hc
    rw [show ((a.branch b).branch c).dispatch x = (a.branch b) x _ from rfl,
        show (a.branch b) x _ = a x _ from rfl, ha, ed b hb]
    show (match c.dispatch x with
          | ControlFlow.Continue e => ControlFlow.Continue e
          | done => done) = ControlFlow.Continue x
    rw [ed c hc]
  · intro o ha
    rw [show ((a.branch b).branch c).dispatch x = (a.branch b) x _ from rfl,
        show (a.branch b) x _ = a x _ from rfl, ha]
  · intro o ha hb
    rw [show ((a.branch b).branch c).dispatch x = (a.branch b) x _ from rfl,
        show (a.branch b) x _ = a x _ from rfl, ha, hb]
  · intro o ha hb hc
    rw [show ((a.branch b).branch c).dispatch x = (a.branch b) x _ from rfl,
        show (a.branch b) x _ = a x _ from rfl, ha, ed b hb]
    show (match c.dispatch x with
          | ControlFlow.Continue e => ControlFlow.Continue e
          | done => done) = ControlFlow.Break o
    rw [hc]

/-- Witness for C6: with concrete filters over `Nat`, a three-way tree returns
the original input when nothing matches, and picks the first matching arm left
to right. -/
theorem branch_isolation_witness :
    (((passH : Handler Nat String).branch (passH)).branch (passH)).dispatch 9
        = ControlFlow.Continue 9
    ∧ ((passH : Handler Nat String).branch (passH)).dispatch 9
        = ControlFlow.Continue 9
    ∧ (((constH "A" : Handler Nat String).branch (passH)).branch
        (passH)).dispatch 9 = ControlFlow.Break "A"
    ∧ (((passH : Handler Nat String).branch (constH "B")).branch
        (passH)).dispatch 9 = ControlFlow.Break "B"
    ∧ (((passH : Handler Nat String).branch (passH)).branch
        (constH "C")).dispatch 9 = ControlFlow.Break "C" :=
  ⟨(branch_isolation (passH) (passH) (passH) 9).2.1
      (fun _x _k => rfl) (fun _x _k => rfl) (fun _x _k => rfl),
   (branch_isolation (passH) (passH) (passH) 9).1
      (fun _x _k => rfl) (fun _x _k => rfl),
   (branch_isolation (constH "A") (passH) (passH) 9).2.2.1 "A" (fun _k => rfl),
   (branch_isolation (passH) (constH "B") (passH) 9).2.2.2.1 "B"
      (fun _x _k => rfl) rfl,
   (branch_isolation (passH) (passH) (constH "C") 9).2.2.2.2 "C"
      (fun _x _k => rfl) (fun _x _k => rfl) rfl⟩

/-- When every declared dependency is present in the container, argument
resolution succeeds. -/
theorem resolveArgs_ok (deps : List Nat) (c : TypeMapDi)
    (hdeps : ∀ t ∈ deps, (c.get t).isSome) :
    ∃ vs, resolveArgs deps c = DiResult.ok vs := by
  induction deps with
  | nil => exact ⟨[], rfl⟩
  | cons t rest ih =>
    obtain ⟨v, hv⟩ := Option.isSome_iff_exists.mp
      (hdeps t (List.mem_cons_self t rest))
    obtain ⟨vs, hvs⟩ := ih (fun u hu => hdeps u (List.mem_cons_of_mem t hu))
    exact ⟨v :: vs, by rw [resolveArgs, hv, hvs]⟩

/-- When some declared dependency is missing from the container, argument
resolution aborts naming a missing dependency type. -/
theorem resolveArgs_missing (deps : List Nat) (c : TypeMapDi)
    (hmiss : ∃ t, t ∈ deps ∧ c.get t = none) :
    ∃ u, u ∈ deps ∧ c.get u = none
      ∧ resolveArgs deps c = DiResult.missingDependency u := by
  induction deps with
  | nil =>
    obtain ⟨t, ht, _⟩ := hmiss
    exact absurd ht (List.not_mem_nil t)
  | cons t rest ih =>
    cases hget : c.get t with
    | none =>
      exact ⟨t, List.mem_cons_self t rest, hget, by rw [resolveArgs, hget]⟩
    | some v =>
      obtain ⟨t0, ht0, hnone⟩ := hmiss
      have ht0r : t0 ∈ rest := by
        rcases List.mem_cons.mp ht0 with h | h
        · rw [h] at hnone
          rw [hnone] at hget
          exact absurd hget (by simp)
        · exact h
      obtain ⟨u, hu, hgu, hres⟩ := ih ⟨t0, ht0r, hnone⟩
      exact ⟨u, List.mem_cons_of_mem t hu, hgu, by rw [resolveArgs, hget, hres]⟩

/-- Claim C9: `dispatch h x` equals `execute h x` with the identity continuation
`leftover ↦ Continue leftover`, and dispatching goes through a clone that
shares the handler, so the handler itself is unconsumed and repeated dispatches
have identical semantics. -/
theorem dispatch_spec {Input Output : Type} (h : Handler Input Output)
    (x : Input) :
    h.dispatch x = h.execute x (fun leftover => ControlFlow.Continue leftover)
    ∧ h.clone = h
    ∧ h.clone.dispatch x = h.dispatch x :=
  ⟨rfl, rfl, rfl⟩

/-- Claim C7: endpoint totality: when every declared dependency of the wrapped
function is present in the container, the endpoint handler always yields
`Break` with the function's result, never declines, and never invokes its
continuation (the outcome is independent of the continuation). -/
theorem endpoint_total {Output : Type} (deps : List Nat) (g : List Nat → Output)
    (c : TypeMapDi) (k : ContF TypeMapDi Output)
    (hdeps : ∀ t ∈ deps, (c.get t).isSome) :
    ∃ vs, resolveArgs deps c = DiResult.ok vs
      ∧ endpointF (intoDiFn deps g) c k
          = DiResult.ok (ControlFlow.Break (g vs))
      ∧ (∀ l, endpointF (intoDiFn deps g) c k
          ≠ DiResult.ok (ControlFlow.Continue l))
      ∧ ∀ k' : ContF TypeMapDi Output,
          endpointF (intoDiFn deps g) c k = endpointF (intoDiFn deps g) c k' := by
  obtain ⟨vs, hvs⟩ := resolveArgs_ok deps c hdeps
  refine ⟨vs, hvs, ?_, ?_, fun k' => rfl⟩
  · show (match (match resolveArgs deps c with
          | DiResult.ok vs2 => DiResult.ok (g vs2)
          | DiResult.missingDependency u => DiResult.missingDependency u) with
        | DiResult.ok res => DiResult.ok (ControlFlow.Break res)
        | DiResult.missingDependency u => DiResult.missingDependency u)
      = DiResult.ok (ControlFlow.Break (g vs))
    rw [hvs]
  · intro l hcontra
    rw [show endpointF (intoDiFn deps g) c k
          = (match (match resolveArgs deps c with
              | DiResult.ok vs2 => DiResult.ok (g vs2)
              | DiResult.missingDependency u => DiResult.missingDependency u) with
            | DiResult.ok res => DiResult.ok (ControlFlow.Break res)
            | DiResult.missingDependency u => DiResult.missingDependency u)
        from rfl, hvs] at hcontra
    exact absurd hcontra (by simp)

/-- Witness for C7: a one-dependency endpoint over a container holding type 0
with value 42 terminates with the function applied to the resolved value. -/
theorem endpoint_total_witness :
    endpointF (intoDiFn [0] (fun vs2 => vs2.foldl (fun acc v => acc + v) 0))
        (TypeMapDi.mk [(0, 42)])
        (fun event => DiResult.ok (ControlFlow.Continue event))
      = DiResult.ok (ControlFlow.Break 42) := by
  obtain ⟨vs, hvs, hrun, hnl, hk⟩ :=
    endpoint_total [0] (fun vs2 => vs2.foldl (fun acc v => acc + v) 0)
      (TypeMapDi.mk [(0, 42)])
      (fun event => DiResult.ok (ControlFlow.Continue event)) (by decide)
  have hvs42 : DiResult.ok vs = DiResult.ok ([42] : List Nat) := by
    rw [← hvs]
    rfl
  injection hvs42 with h
  subst h
  exact hrun

/-- Claim C8: missing-dependency fatality: dispatching an endpoint one of
whose declared dependency types was never inserted aborts with a resolution
failure naming a missing type; it neither declines nor silently succeeds. -/
theorem endpoint_missing_dep {Output : Type} (deps : List Nat)
    (g : List Nat → Output) (c : TypeMapDi) (t : Nat)
    (ht : t ∈ deps) (hnone : c.get t = none) :
    ∃ u, u ∈ deps ∧ c.get u = none
      ∧ (endpointF (intoDiFn deps g)).dispatch c = DiResult.missingDependency u
      ∧ (∀ l, (endpointF (intoDiFn deps g)).dispatch c
          ≠ DiResult.ok (ControlFlow.Continue l))
      ∧ (∀ o, (endpointF (intoDiFn deps g)).dispatch c
          ≠ DiResult.ok (ControlFlow.Break o)) := by
  obtain ⟨u, hu, hgu, hres⟩ := resolveArgs_missing deps c ⟨t, ht, hnone⟩
  have hrun : (endpointF (intoDiFn deps g)).dispatch c
      = DiResult.missingDependency u := by
    show (match (match resolveArgs deps c with
          | DiResult.ok vs => DiResult.ok (g vs)
          | DiResult.missingDependency u2 => DiResult.missingDependency u2) with
        | DiResult.ok res => DiResult.ok (ControlFlow.Break res)
        | DiResult.missingDependency u2 => DiResult.missingDependency u2)
      = DiResult.missingDependency u
    rw [hres]
  refine ⟨u, hu, hgu, hrun, ?_, ?_⟩
  · intro l hcontra
    rw [hrun] at hcontra
    exact absurd hcontra (by simp)
  · intro o hcontra
    rw [hrun] at hcontra
    exact absurd hcontra (by simp)

/-- Witness for C8: dispatching an endpoint that declares dependency type 3
against the empty container fails naming exactly that missing type. -/
theorem endpoint_missing_dep_witness :
    (endpointF (intoDiFn [3] (fun vs => vs.length))).dispatch (TypeMapDi.mk [])
      = DiResult.missingDependency 3 := by
  obtain ⟨u, hu, hgu, hrun, hnl, hnb⟩ :=
    endpoint_missing_dep [3] (fun vs => vs.length) (TypeMapDi.mk []) 3
      (by decide) (by decide)
  have hu3 : u = 3 := List.mem_singleton.mp hu
  subst hu3
  exact hrun

/-- Claim C10: the inspect adapter awaits the injected side-effecting function
on the input, discards its unit result, and returns exactly the continuation's
outcome on the unchanged input: its effects are the function's effects followed
by the continuation's, its outcome is the continuation's, and it never
terminates, declines, or alters the input on its own; the description is
attached verbatim and does not influence the outcome. -/
theorem inspect_spec {E Descr Input Output : Type} (d : Descr)
    (f : Input → Eff E Unit) (x : Input) (cont : ContE E Input Output) :
    ((inspect_async_with_description d f : HandlerD E Descr Input Output).run
        x cont).2 = (cont x).2
    ∧ (inspect_async_with_description d f : HandlerD E Descr Input Output).run
        x cont = ((f x).1 ++ (cont x).1, (cont x).2)
    ∧ (inspect_async_with_description d f :
        HandlerD E Descr Input Output).description = d :=
  ⟨rfl, rfl, rfl⟩

end Dptree
